import Mathlib

/-
Verification development for the ChatViewer Archive Query and Text-Recovery
Engine.  The definitions below are a shallow embedding of the relevant code:

  * src/src/services/CustomDatabaseService.ts
      - extractMessageText        (content decoder)
      - convertAppleTimestamp     (timestamp normalizer)
      - searchMessages            (two-phase search merge)
      - getMessagesAroundMessage  (context locator)
      - getMessagesForChat        (pagination page loader)
  * src/macos/ChatViewer-macOS/ChatDatabaseManager.swift
      - searchMessages SQL        (phase-1 structured query)
      - getMessagesForChat SQL    (paged chat query)

Characters and bytes are modelled as Nat character codes; JavaScript strings
and SQLite blobs are modelled as List Nat.  Nullable columns and optional
fields are modelled as Option.  SQLite query results are modelled
relationally: an ORDER BY without a full key leaves the order of tied rows
unspecified, so a query result is any permutation of the filtered rows that
is sorted on the ORDER BY key.
-/

/-- Character codes treated as whitespace by the JavaScript trim method
(ECMA-262 WhiteSpace and LineTerminator productions: TAB LF VT FF CR SP
NBSP OGHAM-SP the Zs spaces LS PS NNBSP MMSP IDEOGRAPHIC-SP ZWNBSP). -/
def isJsWhitespace (c : Nat) : Bool :=
  (9 ≤ c && c ≤ 13) || c = 32 || c = 160 || c = 5760 ||
  (8192 ≤ c && c ≤ 8202) || c = 8232 || c = 8233 || c = 8239 || c = 8287 ||
  c = 12288 || c = 65279

/-- Model of the JavaScript String.prototype.trim: drop leading and trailing
whitespace character codes. -/
def trimJs (s : List Nat) : List Nat :=
  ((s.dropWhile isJsWhitespace).reverse.dropWhile isJsWhitespace).reverse

/-- Printable ASCII test used by the decoder heuristics: the character class
0x20 to 0x7E of the regular expression and the byte-range check of the
byte-array scan. -/
def isPrintable (c : Nat) : Bool := 32 ≤ c && c ≤ 126

/-- ASCII lower-casing of one character code, modelling both the JavaScript
toLowerCase on ASCII data and the default case folding that the SQLite LIKE
operator applies to ASCII. -/
def lowerByte (c : Nat) : Nat := if 65 ≤ c && c ≤ 90 then c + 32 else c

/-- Contiguous-substring test on character-code lists, modelling the
JavaScript String.prototype.includes and the regular-expression scan for a
literal token. -/
def containsBytes (needle : List Nat) : List Nat → Bool
  | [] => needle.isPrefixOf []
  | c :: cs => needle.isPrefixOf (c :: cs) || containsBytes needle cs

/-- Character codes of the token NSString. -/
def tokNSString : List Nat := [78, 83, 83, 116, 114, 105, 110, 103]

/-- Character codes of the token NSMutable. -/
def tokNSMutable : List Nat := [78, 83, 77, 117, 116, 97, 98, 108, 101]

/-- Character codes of the token CFString. -/
def tokCFString : List Nat := [67, 70, 83, 116, 114, 105, 110, 103]

/-- Character codes of the token bplist. -/
def tokBplist : List Nat := [98, 112, 108, 105, 115, 116]

/-- Character codes of the token of two consecutive underscores. -/
def tokUnderscores : List Nat := [95, 95]

/-- Character codes of the sentinel string returned when every rich-text
heuristic fails: an opening bracket, Rich Text Message, a closing bracket. -/
def richTextSentinel : List Nat :=
  [91, 82, 105, 99, 104, 32, 84, 101, 120, 116, 32, 77, 101, 115, 115, 97, 103, 101, 93]

/-- Character codes of the attachment sentinel string. -/
def attachmentSentinel : List Nat :=
  [91, 65, 116, 116, 97, 99, 104, 109, 101, 110, 116, 93]

/-- Character codes of the empty-message sentinel string. -/
def emptyMessageSentinel : List Nat :=
  [91, 69, 109, 112, 116, 121, 32, 77, 101, 115, 115, 97, 103, 101, 93]

/-- Character codes of the SMS service name. -/
def tokSMS : List Nat := [83, 77, 83]

/-- Character codes of the RCS service name. -/
def tokRCS : List Nat := [82, 67, 83]

/-- A joined row as the queries of the engine deliver it to the TypeScript
layer: message columns, the joined handle identifier, and the joined chat
columns.  Nullable columns are Option; text-valued columns are
character-code lists; the raw timestamp column date is an integer as stored
by the Messages schema.  A message belongs to a chat through the
chat_message_join table; the join produces one row per (message, chat) pair,
so the row carries its chat id directly. -/
structure MsgRow where
  id : Int
  text : Option (List Nat)
  attributedBody : Option (List Nat)
  is_from_me : Int
  date : Int
  handle_id : Option Int
  handle_name : Option (List Nat)
  cache_has_attachments : Option Int
  chat_id : Option Int
  chat_identifier : Option (List Nat)
  chat_display_name : Option (List Nat)
  subject : Option (List Nat)
  associated_message_guid : Option (List Nat)
  service : Option (List Nat)
deriving DecidableEq

/-- Accumulator pass splitting a character-code list into its maximal runs of
printable ASCII characters, left to right. -/
def printableRunsAux : List Nat → List Nat → List (List Nat)
  | [], acc => if acc = [] then [] else [acc.reverse]
  | c :: cs, acc =>
    if isPrintable c then printableRunsAux cs (c :: acc)
    else if acc = [] then printableRunsAux cs []
    else acc.reverse :: printableRunsAux cs []

/-- Maximal runs of printable ASCII characters of a character-code list. -/
def printableRuns (s : List Nat) : List (List Nat) := printableRunsAux s []

/-- Model of the global regular-expression match for four or more consecutive
printable ASCII characters: the maximal printable runs of length at least
four, in order of appearance. -/
def matchRuns (s : List Nat) : List (List Nat) :=
  (printableRuns s).filter (fun r => 4 ≤ r.length)

/-- Noise test of the decoder filter: the run contains one of the known
structural-noise tokens. -/
def isNoiseRun (r : List Nat) : Bool :=
  containsBytes tokNSString r || containsBytes tokNSMutable r ||
  containsBytes tokCFString r || containsBytes tokBplist r ||
  containsBytes tokUnderscores r

/-- Surviving runs of method 1 of the decoder: the regular-expression matches
that contain no noise token and have length greater than four, exactly the
filter applied by extractMessageText. -/
def filteredMatches (s : List Nat) : List (List Nat) :=
  (matchRuns s).filter (fun m => !isNoiseRun m && 4 < m.length)

/-- Model of the JavaScript Array.prototype.reduce with no initial value over
the comparison picking the longer of two runs (keeping the earlier one on
ties): none on the empty list, otherwise the fold from the head. -/
def jsReduceLongest : List (List Nat) → Option (List Nat)
  | [] => none
  | m :: ms => some (ms.foldl (fun a b => if b.length < a.length then a else b) m)

/-- Method 1 of extractMessageText: take the filtered regular-expression
matches, reduce to the longest, and return it trimmed when its length
exceeds four; none when the method falls through to the next heuristic. -/
def method1 (bodyStr : List Nat) : Option (List Nat) :=
  match jsReduceLongest (filteredMatches bodyStr) with
  | none => none
  | some longest => if 4 < longest.length then some (trimJs longest) else none

/-- Maximal printable run of the byte list starting at index i, as built by
the inner while loop of method 2 of extractMessageText. -/
def runFrom (bytes : List Nat) (i : Nat) : List Nat :=
  (bytes.drop i).takeWhile isPrintable

/-- Text accumulated by the index loop of method 2 of extractMessageText:
starting from the empty string, at every start index below length minus
three whose byte is printable, the printable run from that index replaces
the accumulator when it is strictly longer and has length greater than
ten. -/
def method2Text (bytes : List Nat) : List Nat :=
  (List.range (bytes.length - 3)).foldl
    (fun text i =>
      if isPrintable (bytes.getD i 0) then
        let seq := runFrom bytes i
        if text.length < seq.length && 10 < seq.length then seq else text
      else text)
    []

/-- Method 2 of extractMessageText: the accumulated text is returned trimmed
when its length exceeds ten and it contains neither the NSString nor the
bplist token; none when the method falls through. -/
def method2 (bytes : List Nat) : Option (List Nat) :=
  let t := method2Text bytes
  if 10 < t.length && !containsBytes tokNSString t && !containsBytes tokBplist t
  then some (trimJs t) else none

/-- Tail of a match attempt for the NSString quoted-string pattern: the
argument starts immediately after an NSString occurrence; skip the maximal
quote-free span, require a quote, capture the following nonempty quote-free
span, and require a closing quote.  The character code of the double quote
is 34. -/
def nsStringCaptureAfter (s : List Nat) : Option (List Nat) :=
  match s.dropWhile (fun c => c ≠ 34) with
  | [] => none
  | _ :: rest =>
    let cap := rest.takeWhile (fun c => c ≠ 34)
    match rest.drop cap.length with
    | [] => none
    | _ :: _ => if cap = [] then none else some cap

/-- Model of the regular-expression search for NSString followed by a quoted
nonempty string: try every occurrence of NSString left to right and return
the first capture. -/
def nsStringMatch : List Nat → Option (List Nat)
  | [] => none
  | c :: cs =>
    if tokNSString.isPrefixOf (c :: cs) then
      match nsStringCaptureAfter ((c :: cs).drop 8) with
      | some cap => some cap
      | none => nsStringMatch cs
    else nsStringMatch cs

/-- Character codes of the opening tag of the plist string pattern. -/
def tokStringOpen : List Nat := [60, 115, 116, 114, 105, 110, 103, 62]

/-- Character codes of the closing tag of the plist string pattern. -/
def tokStringClose : List Nat := [60, 47, 115, 116, 114, 105, 110, 103, 62]

/-- Model of the regular-expression search for a plist string element: at
every position, an opening string tag followed by a nonempty span free of
the character code 60 (the opening angle bracket) and then a closing string
tag; the first capture wins. -/
def plistMatch : List Nat → Option (List Nat)
  | [] => none
  | c :: cs =>
    if tokStringOpen.isPrefixOf (c :: cs) then
      let rest := (c :: cs).drop 8
      let cap := rest.takeWhile (fun ch => ch ≠ 60)
      if cap ≠ [] && tokStringClose.isPrefixOf (rest.drop cap.length) then some cap
      else plistMatch cs
    else plistMatch cs

/-- Rich-text branch of extractMessageText on the blob bytes.  The blob
reaches the TypeScript layer as an object carrying a byte array, and the
code converts it with String.fromCharCode, so the string scanned by the
regular expressions and the byte array scanned by method 2 contain the same
character codes; both are this list.  The four heuristics are tried in the
order of the source and the sentinel is returned when all fail.  The
surrounding try/catch of the source cannot fire in this pure model. -/
def extractFromBlobBytes (bytes : List Nat) : List Nat :=
  match method1 bytes with
  | some r => r
  | none =>
    match method2 bytes with
    | some r => r
    | none =>
      match nsStringMatch bytes with
      | some cap => cap
      | none =>
        match plistMatch bytes with
        | some cap => cap
        | none => richTextSentinel

/-- Fallthrough of extractMessageText after the plain-text check: the
rich-text branch when the blob is present (a present byte array is a truthy
JavaScript object even when empty), else the attachment sentinel when the
attachment counter column equals one, else the empty-message sentinel. -/
def extractRest (m : MsgRow) : List Nat :=
  match m.attributedBody with
  | some bytes => extractFromBlobBytes bytes
  | none =>
    if m.cache_has_attachments = some 1 then attachmentSentinel
    else emptyMessageSentinel

/-- Model of extractMessageText of CustomDatabaseService: when the text
column is present and trims to a nonempty string, return the trimmed text
(a JavaScript string whose trim is nonempty is itself truthy, so the
truthiness guard of the source adds nothing); otherwise fall through to the
rich-text, attachment and empty-message cases. -/
def extractMessageText (m : MsgRow) : List Nat :=
  match m.text with
  | some t => if trimJs t ≠ [] then trimJs t else extractRest m
  | none => extractRest m

/-- Result type of the timestamp normalizer convertAppleTimestamp: either
the fabricated current-time Date of the invalid branch, or a definite UTC
instant carried as a count of Unix-epoch milliseconds.  Raw values are
modelled as exact rationals, the idealization of the JavaScript number
arithmetic of the source. -/
inductive JsDateResult where
  | currentTime : JsDateResult
  | instant (unixMillis : Rat) : JsDateResult
deriving DecidableEq

/-- Model of convertAppleTimestamp of CustomDatabaseService.  The guard of
the source tests falsiness, not-a-number and non-finiteness; on finite
rational inputs it fires exactly on zero.  Otherwise: a raw value above
1e15 is treated as nanoseconds and divided by 1e9, else taken as seconds;
the Cocoa-to-Unix offset 978307200 is added and the result scaled to
milliseconds. -/
def convertAppleTimestamp (timestamp : Rat) : JsDateResult :=
  if timestamp = 0 then JsDateResult.currentTime
  else
    let appleSeconds : Rat :=
      if 1000000000000000 < timestamp then timestamp / 1000000000 else timestamp
    JsDateResult.instant ((appleSeconds + 978307200) * 1000)

/-- Seconds branch of the normalizer in isolation: the instant obtained by
taking the argument directly as Cocoa seconds. -/
def secondsBranchNormalize (s : Rat) : JsDateResult :=
  JsDateResult.instant ((s + 978307200) * 1000)

/-- Date order, ascending: the first row has a raw timestamp at most that of
the second. -/
def dateAscLe (a b : MsgRow) : Prop := a.date ≤ b.date

/-- Date order, descending: the first row has a raw timestamp at least that
of the second. -/
def dateDescLe (a b : MsgRow) : Prop := b.date ≤ a.date

instance : DecidableRel dateAscLe := fun a b => inferInstanceAs (Decidable (a.date ≤ b.date))

instance : DecidableRel dateDescLe := fun a b => inferInstanceAs (Decidable (b.date ≤ a.date))

instance : IsTotal MsgRow dateAscLe := ⟨fun a b => Int.le_total a.date b.date⟩

instance : IsTotal MsgRow dateDescLe := ⟨fun a b => Int.le_total b.date a.date⟩

instance : IsTrans MsgRow dateAscLe := ⟨fun _ _ _ h h2 => le_trans h h2⟩

instance : IsTrans MsgRow dateDescLe := ⟨fun _ _ _ h h2 => le_trans h2 h⟩

/-- A row list sorted by raw timestamp ascending. -/
def DateSortedAsc (l : List MsgRow) : Prop := l.Pairwise dateAscLe

/-- A row list sorted by raw timestamp descending. -/
def DateSortedDesc (l : List MsgRow) : Prop := l.Pairwise dateDescLe

/-- Canonical stable date-ascending sort, used as one concrete realization of
an ORDER BY date ASC result. -/
def sortByDateAsc (l : List MsgRow) : List MsgRow := List.insertionSort dateAscLe l

/-- Canonical stable date-descending sort.  It realizes an ORDER BY date DESC
result, and it also models the JavaScript sort of the search merge, whose
comparator subtracts dates: the engine sort is stable, and a stable sort
under a fixed total preorder has a unique result, which insertion sort
computes. -/
def sortByDateDesc (l : List MsgRow) : List MsgRow := List.insertionSort dateDescLe l

/-- Field test of the SQLite LIKE with a pattern enclosed in percent signs:
false on NULL (a NULL comparison is not satisfied), else the
case-insensitive containment of the term. -/
def likeField (term : List Nat) : Option (List Nat) → Bool
  | none => false
  | some f => containsBytes (term.map lowerByte) (f.map lowerByte)

/-- Row predicate of the phase-1 structured search query of
ChatDatabaseManager: the disjunction of LIKE tests over message text,
subject, associated message guid, handle identifier, chat identifier and
chat display name. -/
def structuredMatch (term : List Nat) (m : MsgRow) : Bool :=
  likeField term m.text || likeField term m.subject ||
  likeField term m.associated_message_guid || likeField term m.handle_name ||
  likeField term m.chat_identifier || likeField term m.chat_display_name

/-- Relational model of a result of the phase-1 structured search SQL: a
permutation of the structurally matching rows, sorted by raw timestamp
descending.  The limit argument mirrors the parameter of the native
searchMessages entry point; the SQL text of the source contains no LIMIT
clause, so the limit does not constrain the result. -/
def Phase1Result (store : List MsgRow) (term : List Nat) (_limit : Nat)
    (result : List MsgRow) : Prop :=
  List.Perm result (store.filter (structuredMatch term)) ∧ DateSortedDesc result

/-- Deterministic realization of the phase-1 structured search: the
date-descending sort of the matching rows.  The limit argument is received
and ignored, as in the SQL of the source. -/
def phase1Model (store : List MsgRow) (term : List Nat) (_limit : Nat) : List MsgRow :=
  sortByDateDesc (store.filter (structuredMatch term))

/-- Service filter shared by the chat queries: the SQL accepts a row whose
service column is NULL or differs from both SMS and RCS. -/
def serviceAllowed : Option (List Nat) → Bool
  | none => true
  | some s => !(s = tokSMS || s = tokRCS)

/-- Content filter shared by the chat queries: the SQL requires text or the
rich-text blob to be non-NULL. -/
def hasContent (m : MsgRow) : Bool := m.text.isSome || m.attributedBody.isSome

/-- Row predicate of the chat-scoped queries of the engine (the context
query of getMessagesAroundMessage and the paged query of the native
getMessagesForChat): the row joins to the requested chat, survives the
service filter and has content. -/
def contextEligible (chatId : Int) (m : MsgRow) : Bool :=
  (m.chat_id = some chatId) && serviceAllowed m.service && hasContent m

/-- Relational model of a result of the context query of
getMessagesAroundMessage: a permutation of the eligible rows of the chat,
sorted by raw timestamp ascending.  The ORDER BY of the source names only
the date column, so tied rows may appear in any order. -/
def ContextQueryResult (store : List MsgRow) (chatId : Int) (result : List MsgRow) : Prop :=
  List.Perm result (store.filter (contextEligible chatId)) ∧ DateSortedAsc result

/-- Relational model of the full date-descending enumeration that the paged
chat query of ChatDatabaseManager reads with LIMIT and OFFSET: a
permutation of the eligible rows of the chat, sorted by raw timestamp
descending; the ORDER BY again names only the date column. -/
def DescEnumeration (store : List MsgRow) (chatId : Int) (ordered : List MsgRow) : Prop :=
  List.Perm ordered (store.filter (contextEligible chatId)) ∧ DateSortedDesc ordered

/-- Model of the native getMessagesForChat SQL on a chosen date-descending
enumeration: LIMIT and OFFSET take a page of the enumeration. -/
def getMessagesForChatQuery (ordered : List MsgRow) (limit offset : Nat) : List MsgRow :=
  (ordered.drop offset).take limit

/-- Relational model of a result of the paged chat query: some
date-descending enumeration of the eligible rows paged by LIMIT and
OFFSET. -/
def PagedQueryResult (store : List MsgRow) (chatId : Int) (limit offset : Nat)
    (result : List MsgRow) : Prop :=
  ∃ ordered, DescEnumeration store chatId ordered ∧
    result = getMessagesForChatQuery ordered limit offset

/-- Model of the TypeScript getMessagesForChat on a chosen enumeration: the
page fetched most-recent-first is reversed to chronological order before it
is returned. -/
def getPage (ordered : List MsgRow) (limit offset : Nat) : List MsgRow :=
  (getMessagesForChatQuery ordered limit offset).reverse

/-- Decoded-content test of phase 2 of searchMessages: the lower-cased
search term occurs in the lower-cased decoded text of the row. -/
def decodedMatch (term : List Nat) (m : MsgRow) : Bool :=
  containsBytes (term.map lowerByte) ((extractMessageText m).map lowerByte)

/-- Phase-2 filter of searchMessages over the broad-query row pool: keep a
row when no phase-1 row carries its id and its decoded text contains the
term. -/
def phase2Filter (phase1Rows pool : List MsgRow) (term : List Nat) : List MsgRow :=
  pool.filter (fun m =>
    !(phase1Rows.any (fun existing => existing.id = m.id)) && decodedMatch term m)

/-- Merge step of searchMessages: concatenate the phase-1 rows with the
phase-2 matches, sort by raw timestamp descending, and truncate to the
requested limit. -/
def mergeSearch (phase1Rows pool : List MsgRow) (term : List Nat) (limit : Nat) : List MsgRow :=
  (sortByDateDesc (phase1Rows ++ phase2Filter phase1Rows pool term)).take limit

/-- Number of rows of a list carrying a given message id. -/
def countId (i : Int) (l : List MsgRow) : Nat := l.countP (fun x => x.id = i)

/-- Model of the JavaScript Array.prototype.findIndex returning an optional
index instead of the sentinel minus one. -/
def findIndex? (p : MsgRow → Bool) : List MsgRow → Option Nat
  | [] => none
  | a :: as => if p a then some 0 else (findIndex? p as).map (· + 1)

/-- Window slice of the context locator: the JavaScript slice from
max(0, pos - cs) to min(length, pos + cs + 1), written with truncated
natural subtraction for the left clamp and take-of-drop for the slice. -/
def contextWindow (l : List MsgRow) (pos cs : Nat) : List MsgRow :=
  (l.drop (pos - cs)).take (min l.length (pos + cs + 1) - (pos - cs))

/-- Model of getMessagesAroundMessage on the rows returned by the context
query: locate the target id, slice the window around it, and re-base the
target index to the window start.  The none case models the fallback branch
of the source, which returns a recent page with target index minus one when
the id is absent. -/
def getMessagesAroundMessage (allMessages : List MsgRow) (targetMessageId : Int)
    (contextSize : Nat) : Option (List MsgRow × Nat) :=
  match findIndex? (fun m => m.id = targetMessageId) allMessages with
  | none => none
  | some targetIndex =>
    some (contextWindow allMessages targetIndex contextSize,
          targetIndex - (targetIndex - contextSize))

/-- Row template with every optional column NULL and zero scalars, used to
build concrete test rows. -/
def baseRow : MsgRow :=
  { id := 0, text := none, attributedBody := none, is_from_me := 0, date := 0,
    handle_id := none, handle_name := none, cache_has_attachments := none,
    chat_id := none, chat_identifier := none, chat_display_name := none,
    subject := none, associated_message_guid := none, service := none }

/-- Concrete blob for the C1 witness: two unprintable bytes, the printable
run spelling hello world with an exclamation mark, an unprintable byte, and
a short printable tail below the run threshold. -/
def bytesC1 : List Nat :=
  [0, 1, 104, 101, 108, 108, 111, 32, 119, 111, 114, 108, 100, 33, 0, 97, 98]

/-- Concrete row for the C1 witness: no plain text, blob present. -/
def rowC1 : MsgRow := { baseRow with attributedBody := some bytesC1 }

/-- Longest surviving run of the C1 witness blob. -/
def runC1 : List Nat := [104, 101, 108, 108, 111, 32, 119, 111, 114, 108, 100, 33]

/-- Concrete row for C2: plain text of the two letters hi surrounded by one
space on each side. -/
def rowC2 : MsgRow := { baseRow with text := some [32, 104, 105, 32] }

instance (l : List MsgRow) : Decidable (DateSortedAsc l) :=
  inferInstanceAs (Decidable (l.Pairwise dateAscLe))

instance (l : List MsgRow) : Decidable (DateSortedDesc l) :=
  inferInstanceAs (Decidable (l.Pairwise dateDescLe))

instance (store : List MsgRow) (term : List Nat) (limit : Nat) (result : List MsgRow) :
    Decidable (Phase1Result store term limit result) :=
  inferInstanceAs (Decidable (_ ∧ _))

instance (store : List MsgRow) (chatId : Int) (result : List MsgRow) :
    Decidable (ContextQueryResult store chatId result) :=
  inferInstanceAs (Decidable (_ ∧ _))

instance (store : List MsgRow) (chatId : Int) (ordered : List MsgRow) :
    Decidable (DescEnumeration store chatId ordered) :=
  inferInstanceAs (Decidable (_ ∧ _))

/-- Concrete rows for C3: two rows of distinct dates whose texts contain the
lower-case letter a. -/
def rowC3a : MsgRow := { baseRow with id := 1, date := 1, text := some [97, 120] }

/-- Second concrete row for C3. -/
def rowC3b : MsgRow := { baseRow with id := 2, date := 2, text := some [97, 121] }

/-- Concrete row for C4 matching the term both structurally and in decoded
content, with the older date. -/
def rowC4a : MsgRow := { baseRow with id := 1, date := 5, text := some [97, 97, 97, 97, 97, 97] }

/-- Concrete row for C4 with the newer date. -/
def rowC4b : MsgRow := { baseRow with id := 2, date := 10, text := some [97, 98, 98, 98, 98] }

/-- Concrete rows for the C7 witness: three rows of ascending dates and ids
one to three. -/
def rowC7a : MsgRow := { baseRow with id := 1, date := 1 }

/-- Second concrete row for the C7 witness. -/
def rowC7b : MsgRow := { baseRow with id := 2, date := 2 }

/-- Third concrete row for the C7 witness. -/
def rowC7c : MsgRow := { baseRow with id := 3, date := 3 }

/-- Concrete rows for C8: four eligible rows of one chat with ascending
dates one to four. -/
def rowC8a : MsgRow := { baseRow with id := 1, date := 1, text := some [97], chat_id := some 1 }

/-- Second concrete row for C8. -/
def rowC8b : MsgRow := { baseRow with id := 2, date := 2, text := some [98], chat_id := some 1 }

/-- Third concrete row for C8. -/
def rowC8c : MsgRow := { baseRow with id := 3, date := 3, text := some [99], chat_id := some 1 }

/-- Fourth concrete row for C8. -/
def rowC8d : MsgRow := { baseRow with id := 4, date := 4, text := some [100], chat_id := some 1 }

/-- Store for C8. -/
def storeC8 : List MsgRow := [rowC8a, rowC8b, rowC8c, rowC8d]

/-- Date-descending enumeration of the C8 store. -/
def orderedC8 : List MsgRow := [rowC8d, rowC8c, rowC8b, rowC8a]

/-- Concrete rows for C9: two eligible rows of one chat with equal dates and
ids one and two. -/
def rowC9a : MsgRow := { baseRow with id := 1, date := 5, text := some [97], chat_id := some 1 }

/-- Second concrete row for C9. -/
def rowC9b : MsgRow := { baseRow with id := 2, date := 5, text := some [98], chat_id := some 1 }

/-- Store for C9. -/
def storeC9 : List MsgRow := [rowC9a, rowC9b]

/-- Tiebroken order relation demanded by the C9 claim: strictly earlier
timestamp, or equal timestamp and row id ascending. -/
def tsIdLe (a b : MsgRow) : Prop :=
  a.date < b.date ∨ (a.date = b.date ∧ a.id ≤ b.id)

instance : DecidableRel tsIdLe := fun a b =>
  inferInstanceAs (Decidable (a.date < b.date ∨ (a.date = b.date ∧ a.id ≤ b.id)))

/-- Total order demanded by the C9 claim: timestamp ascending with ties
broken by ascending row id. -/
def tsIdOrdered (l : List MsgRow) : Prop := l.Pairwise tsIdLe

instance (l : List MsgRow) : Decidable (tsIdOrdered l) :=
  inferInstanceAs (Decidable (l.Pairwise tsIdLe))

/-- Concrete eligible row for the C10 witness. -/
def rowC10good : MsgRow :=
  { baseRow with id := 1, date := 1, text := some [97], chat_id := some 1 }

/-- Concrete SMS row for the C10 witness, excluded by the service filter. -/
def rowC10sms : MsgRow :=
  { baseRow with
    id := 2, date := 2, text := some [98], chat_id := some 1, service := some tokSMS }

/-- Store for C10. -/
def storeC10 : List MsgRow := [rowC10good, rowC10sms]

/-- Trimming never lengthens a string. -/
theorem trimJs_length_le (s : List Nat) : (trimJs s).length ≤ s.length := by
  unfold trimJs
  have h1 : (s.dropWhile isJsWhitespace).length ≤ s.length :=
    (List.dropWhile_sublist isJsWhitespace).length_le
  have h2 : ((s.dropWhile isJsWhitespace).reverse.dropWhile isJsWhitespace).length ≤
      (s.dropWhile isJsWhitespace).reverse.length :=
    (List.dropWhile_sublist isJsWhitespace).length_le
  simp only [List.length_reverse] at h2 ⊢
  exact le_trans h2 h1

/-- Fold underlying the reduce of method 1: the result is the accumulator or
one of the folded runs, is at least as long as the accumulator, and is at
least as long as every folded run. -/
theorem foldlLongest_spec : ∀ (ms : List (List Nat)) (a : List Nat),
    ((ms.foldl (fun a b => if b.length < a.length then a else b) a) ∈ a :: ms) ∧
    a.length ≤ (ms.foldl (fun a b => if b.length < a.length then a else b) a).length ∧
    ∀ r ∈ ms, r.length ≤ (ms.foldl (fun a b => if b.length < a.length then a else b) a).length
  | [], a => by simp
  | m :: ms, a => by
    obtain ⟨h1, h2, h3⟩ := foldlLongest_spec ms (if m.length < a.length then a else m)
    have hab : a.length ≤ (if m.length < a.length then a else m).length := by
      by_cases h : m.length < a.length <;> simp [h] <;> omega
    have hmb : m.length ≤ (if m.length < a.length then a else m).length := by
      by_cases h : m.length < a.length <;> simp [h] <;> omega
    refine ⟨?_, le_trans hab h2, ?_⟩
    · simp only [List.foldl_cons]
      rcases List.mem_cons.mp h1 with h | h
      · rw [h]
        by_cases hc : m.length < a.length
        · rw [if_pos hc]
          exact List.mem_cons_self a (m :: ms)
        · rw [if_neg hc]
          exact List.mem_cons_of_mem a (List.mem_cons_self m ms)
      · exact List.mem_cons_of_mem a (List.mem_cons_of_mem m h)
    · intro r hr
      simp only [List.foldl_cons]
      rcases List.mem_cons.mp hr with rfl | hr
      · exact le_trans hmb h2
      · exact h3 r hr

/-- Specification of the reduce of method 1: a some result belongs to the
reduced list and no element of the list is longer. -/
theorem jsReduceLongest_spec {ms : List (List Nat)} {L : List Nat}
    (h : jsReduceLongest ms = some L) :
    L ∈ ms ∧ ∀ r ∈ ms, r.length ≤ L.length := by
  cases ms with
  | nil => simp [jsReduceLongest] at h
  | cons m ms =>
    simp only [jsReduceLongest, Option.some.injEq] at h
    obtain ⟨h1, h2, h3⟩ := foldlLongest_spec ms m
    rw [h] at h1 h2 h3
    refine ⟨h1, ?_⟩
    intro r hr
    rcases List.mem_cons.mp hr with rfl | hr
    · exact h2
    · exact h3 r hr

/-- Specification of the findIndex model: a found index is in range and the
element there satisfies the predicate. -/
theorem findIndex?_some_spec (p : MsgRow → Bool) :
    ∀ (l : List MsgRow) (i : Nat), findIndex? p l = some i →
      i < l.length ∧ ∃ a, l[i]? = some a ∧ p a = true
  | [], i => by simp [findIndex?]
  | a :: as, i => by
    intro h
    simp only [findIndex?] at h
    by_cases hp : p a
    · rw [if_pos hp] at h
      cases h
      exact ⟨Nat.succ_pos _, a, by simp, hp⟩
    · rw [if_neg hp] at h
      obtain ⟨j, hj, rfl⟩ := Option.map_eq_some'.mp h
      obtain ⟨hlt, b, hb, hpb⟩ := findIndex?_some_spec p as j hj
      exact ⟨Nat.succ_lt_succ hlt, b, by simpa using hb, hpb⟩

/-- Count of one message id in a list whose ids are distinct: one occurrence
for every member. -/
theorem countId_eq_one_of_nodup {l : List MsgRow} {m : MsgRow}
    (hnd : (l.map MsgRow.id).Nodup) (hm : m ∈ l) : countId m.id l = 1 := by
  induction l with
  | nil => simp at hm
  | cons a as ih =>
    simp only [List.map_cons, List.nodup_cons] at hnd
    obtain ⟨hna, hnd⟩ := hnd
    rcases List.mem_cons.mp hm with rfl | hm
    · have hz : as.countP (fun x => decide (x.id = m.id)) = 0 := by
        rw [List.countP_eq_zero]
        intro x hx
        simp only [decide_eq_true_eq]
        intro hEq
        exact hna (hEq ▸ List.mem_map_of_mem MsgRow.id hx)
      simp [countId, List.countP_cons, hz]
    · have ha : ¬ (a.id = m.id) := by
        intro hEq
        exact hna (by rw [hEq]; exact List.mem_map_of_mem MsgRow.id hm)
      have := ih hnd hm
      simp only [countId] at this ⊢
      rw [List.countP_cons]
      simp [ha, this]

/-- The date-descending sort is a permutation of its input. -/
theorem sortByDateDesc_perm (l : List MsgRow) : List.Perm (sortByDateDesc l) l :=
  List.perm_insertionSort dateDescLe l

/-- The date-descending sort is sorted descending. -/
theorem sortByDateDesc_sorted (l : List MsgRow) : DateSortedDesc (sortByDateDesc l) :=
  List.sorted_insertionSort dateDescLe l

/-- The date-ascending sort is a permutation of its input. -/
theorem sortByDateAsc_perm (l : List MsgRow) : List.Perm (sortByDateAsc l) l :=
  List.perm_insertionSort dateAscLe l

/-- The date-ascending sort is sorted ascending. -/
theorem sortByDateAsc_sorted (l : List MsgRow) : DateSortedAsc (sortByDateAsc l) :=
  List.sorted_insertionSort dateAscLe l

/-- C1: for a message whose plain-text field is absent or trims to empty and
whose rich-text blob is present, if the noise filter leaves at least one
printable run (the reduce of the code yields some longest run L), then as
soon as the trimmed length of L exceeds four the decoder returns L trimmed,
and L is one of the surviving runs with no survivor longer; and when every
heuristic step yields nothing the decoder returns the rich-text sentinel. -/
theorem extractMessageText_c1 (m : MsgRow) (bytes L : List Nat)
    (htext : m.text = none ∨ ∃ t, m.text = some t ∧ trimJs t = [])
    (hblob : m.attributedBody = some bytes) :
    (jsReduceLongest (filteredMatches bytes) = some L → 4 < (trimJs L).length →
      extractMessageText m = trimJs L ∧ L ∈ filteredMatches bytes ∧
      ∀ r ∈ filteredMatches bytes, r.length ≤ L.length) ∧
    (method1 bytes = none → method2 bytes = none → nsStringMatch bytes = none →
      plistMatch bytes = none → extractMessageText m = richTextSentinel) := by
  have h2 : extractRest m = extractFromBlobBytes bytes := by
    unfold extractRest
    rw [hblob]
  have hrest : extractMessageText m = extractFromBlobBytes bytes := by
    rcases htext with h | ⟨t, ht, htr⟩
    · simp only [extractMessageText, h]
      exact h2
    · simp only [extractMessageText, ht, htr]
      simpa using h2
  constructor
  · intro hred hlen
    have hspec := jsReduceLongest_spec hred
    have hL : 4 < L.length := lt_of_lt_of_le hlen (trimJs_length_le L)
    have hm1 : method1 bytes = some (trimJs L) := by
      simp only [method1, hred]
      rw [if_pos hL]
    refine ⟨?_, hspec.1, hspec.2⟩
    rw [hrest]
    unfold extractFromBlobBytes
    rw [hm1]
  · intro hm1 hm2 hm3 hm4
    rw [hrest]
    unfold extractFromBlobBytes
    rw [hm1, hm2, hm3, hm4]

theorem extractMessageText_c1_witness : extractMessageText rowC1 = trimJs runC1 :=
  ((extractMessageText_c1 rowC1 bytesC1 runC1 (Or.inl rfl) rfl).1
    (by decide) (by decide)).1

/-- C2 counterexample: a stored text whose trim is nonempty is not returned
verbatim; the decoder returns the trimmed text, which differs from the
stored value when the text carries surrounding whitespace. -/
theorem extractMessageText_c2_counterexample :
    trimJs [32, 104, 105, 32] ≠ [] ∧
    extractMessageText rowC2 ≠ [32, 104, 105, 32] ∧
    extractMessageText rowC2 = [104, 105] := by decide

/-- C2 amended: for every message whose plain-text field trims to a nonempty
string, the decoder returns that text trimmed (not verbatim). -/
theorem extractMessageText_c2_amended (m : MsgRow) (t : List Nat)
    (ht : m.text = some t) (hne : trimJs t ≠ []) :
    extractMessageText m = trimJs t := by
  simp [extractMessageText, ht, hne]

theorem extractMessageText_c2_witness :
    extractMessageText rowC2 = trimJs [32, 104, 105, 32] :=
  extractMessageText_c2_amended rowC2 [32, 104, 105, 32] rfl (by decide)

/-- C5 counterexample: the normalizer applied to the raw value zero returns
the fabricated current time, not the Cocoa epoch instant 2001-01-01
(Unix milliseconds 978307200000): zero fails the truthiness guard of the
source. -/
theorem convertAppleTimestamp_c5_counterexample :
    convertAppleTimestamp 0 = JsDateResult.currentTime ∧
    convertAppleTimestamp 0 ≠ JsDateResult.instant 978307200000 := by
  constructor
  · simp [convertAppleTimestamp]
  · simp [convertAppleTimestamp]

/-- C5 amended: the raw value zero takes the invalid branch and yields the
fabricated current time, and no raw value at all maps to the exact Cocoa
epoch instant (the nonzero inputs that reach the arithmetic always add the
nonzero offset of a nonzero seconds value). -/
theorem convertAppleTimestamp_c5_amended (q : Rat) :
    (q = 0 → convertAppleTimestamp q = JsDateResult.currentTime) ∧
    convertAppleTimestamp q ≠ JsDateResult.instant 978307200000 := by
  constructor
  · intro h
    simp [convertAppleTimestamp, h]
  · unfold convertAppleTimestamp
    by_cases h0 : q = 0
    · simp [h0]
    · rw [if_neg h0]
      by_cases h1 : (1000000000000000 : Rat) < q
      · rw [if_pos h1]
        simp only [ne_eq, JsDateResult.instant.injEq]
        intro hEq
        have hs : q / 1000000000 = 0 := by linarith
        rcases div_eq_zero_iff.mp hs with h | h
        · exact h0 h
        · norm_num at h
      · rw [if_neg h1]
        simp only [ne_eq, JsDateResult.instant.injEq]
        intro hEq
        apply h0
        linarith

theorem convertAppleTimestamp_c5_witness :
    convertAppleTimestamp 0 = JsDateResult.currentTime :=
  (convertAppleTimestamp_c5_amended 0).1 rfl

/-- C6 counterexample: a large negative raw value has absolute value above
1e15, yet the code compares the signed value and takes the seconds branch,
not the nanoseconds branch demanded by the claim. -/
theorem convertAppleTimestamp_c6_counterexample :
    1000000000000000 < |(-2000000000000000 : Rat)| ∧
    convertAppleTimestamp (-2000000000000000) =
      JsDateResult.instant ((-2000000000000000 + 978307200) * 1000) ∧
    convertAppleTimestamp (-2000000000000000) ≠
      JsDateResult.instant ((-2000000000000000 / 1000000000 + 978307200) * 1000) := by
  refine ⟨by norm_num, ?_, ?_⟩
  · norm_num [convertAppleTimestamp]
  · norm_num [convertAppleTimestamp]

/-- C6 amended: for every nonzero finite raw value, the normalizer divides
by 1e9 and takes the seconds arithmetic on the quotient exactly when the
signed raw value exceeds 1e15 (not its absolute value), and otherwise
treats the raw value directly as seconds; in both cases it adds the fixed
offset 978307200 seconds, so for raw above 1e15 the result equals the
seconds branch applied to raw divided by 1e9. -/
theorem convertAppleTimestamp_c6_amended (raw : Rat) (h0 : raw ≠ 0) :
    (1000000000000000 < raw →
      convertAppleTimestamp raw = secondsBranchNormalize (raw / 1000000000)) ∧
    (¬ 1000000000000000 < raw →
      convertAppleTimestamp raw = secondsBranchNormalize raw) := by
  constructor
  · intro h1
    simp [convertAppleTimestamp, secondsBranchNormalize, h0, h1]
  · intro h1
    simp [convertAppleTimestamp, secondsBranchNormalize, h0, h1]

theorem convertAppleTimestamp_c6_witness :
    convertAppleTimestamp 2000000000000000 =
      secondsBranchNormalize (2000000000000000 / 1000000000) :=
  (convertAppleTimestamp_c6_amended 2000000000000000 (by decide)).1 (by decide)

/-- C3 counterexample: with two structurally matching rows and a requested
limit of one, the phase-1 result is a valid result of the native search SQL
and holds two rows: the SQL has no LIMIT clause, so phase 1 is not capped
at the requested limit. -/
theorem phase1_c3_counterexample :
    Phase1Result [rowC3a, rowC3b] [97] 1 (phase1Model [rowC3a, rowC3b] [97] 1) ∧
    (phase1Model [rowC3a, rowC3b] [97] 1).length = 2 ∧
    ¬ ((phase1Model [rowC3a, rowC3b] [97] 1).length ≤ 1) := by decide

/-- C3 amended: phase 1 of the search is a parametrized case-insensitive
substring query over the six structured plain-text fields, ordered by raw
timestamp descending, but unbounded: the result is independent of the
requested limit and holds exactly the structurally matching rows. -/
theorem phase1_c3_amended (store : List MsgRow) (term : List Nat) (limit1 limit2 : Nat) :
    phase1Model store term limit1 = phase1Model store term limit2 ∧
    Phase1Result store term limit1 (phase1Model store term limit1) ∧
    ∀ m, m ∈ phase1Model store term limit1 ↔ (m ∈ store ∧ structuredMatch term m = true) := by
  refine ⟨rfl, ⟨sortByDateDesc_perm _, sortByDateDesc_sorted _⟩, ?_⟩
  intro m
  rw [phase1Model, (sortByDateDesc_perm _).mem_iff]
  simp [List.mem_filter]

/-- C4 counterexample: a message matching both a structured field and its
decoded content appears zero times, not exactly once, in the final result
when the truncation to the requested limit cuts it off. -/
theorem mergeSearch_c4_counterexample :
    structuredMatch [97] rowC4a = true ∧ decodedMatch [97] rowC4a = true ∧
    rowC4a ∈ [rowC4b, rowC4a] ∧
    mergeSearch [rowC4b, rowC4a] [rowC4a] [97] 1 = [rowC4b] ∧
    countId rowC4a.id (mergeSearch [rowC4b, rowC4a] [rowC4a] [97] 1) = 0 := by decide

/-- C4 amended: the merge unions phase 1 with the phase-2 matches
de-duplicated by message id, sorts by raw timestamp descending, and
truncates to the requested limit; a message matching both evidence sources
appears exactly once in the de-duplicated union and hence at most once in
the truncated final result, which respects the limit and the descending
order. -/
theorem mergeSearch_c4_amended (phase1Rows pool : List MsgRow) (term : List Nat)
    (limit : Nat) (m : MsgRow) (hnd : (phase1Rows.map MsgRow.id).Nodup)
    (hm : m ∈ phase1Rows) (hdm : decodedMatch term m = true) :
    countId m.id (phase1Rows ++ phase2Filter phase1Rows pool term) = 1 ∧
    countId m.id (mergeSearch phase1Rows pool term limit) ≤ 1 ∧
    (mergeSearch phase1Rows pool term limit).length ≤ limit ∧
    DateSortedDesc (mergeSearch phase1Rows pool term limit) := by
  have h1 : countId m.id phase1Rows = 1 := countId_eq_one_of_nodup hnd hm
  have h2 : countId m.id (phase2Filter phase1Rows pool term) = 0 := by
    rw [countId, List.countP_eq_zero]
    intro x hx
    obtain ⟨hxpool, hpred⟩ := List.mem_filter.mp hx
    simp only [Bool.and_eq_true, Bool.not_eq_true', List.any_eq_false,
      decide_eq_true_eq] at hpred
    obtain ⟨hids, _⟩ := hpred
    simp only [decide_eq_true_eq]
    intro hEq
    exact hids m hm hEq.symm
  have hunion : countId m.id (phase1Rows ++ phase2Filter phase1Rows pool term) = 1 := by
    rw [countId, List.countP_append]
    rw [countId] at h1 h2
    omega
  refine ⟨hunion, ?_, ?_, ?_⟩
  · have hperm := sortByDateDesc_perm (phase1Rows ++ phase2Filter phase1Rows pool term)
    have hsortcount :
        countId m.id (sortByDateDesc (phase1Rows ++ phase2Filter phase1Rows pool term)) = 1 := by
      rw [countId, hperm.countP_eq]
      rw [countId] at hunion
      exact hunion
    have htake : countId m.id (mergeSearch phase1Rows pool term limit) ≤
        countId m.id (sortByDateDesc (phase1Rows ++ phase2Filter phase1Rows pool term)) := by
      rw [countId, countId, mergeSearch]
      exact List.Sublist.countP_le _ (List.take_sublist _ _)
    omega
  · simpa [mergeSearch] using List.length_take_le limit _
  · exact (sortByDateDesc_sorted _).sublist (List.take_sublist _ _)

theorem mergeSearch_c4_witness :
    countId rowC4a.id ([rowC4b, rowC4a] ++ phase2Filter [rowC4b, rowC4a] [rowC4a] [97]) = 1 ∧
    countId rowC4a.id (mergeSearch [rowC4b, rowC4a] [rowC4a] [97] 5) ≤ 1 :=
  ⟨(mergeSearch_c4_amended [rowC4b, rowC4a] [rowC4a] [97] 5 rowC4a
      (by decide) (by decide) (by decide)).1,
   (mergeSearch_c4_amended [rowC4b, rowC4a] [rowC4a] [97] 5 rowC4a
      (by decide) (by decide) (by decide)).2.1⟩

/-- C7: when the target id is found at position pos in the chronologically
ascending sequence of the chat, the locator returns the slice with bounds
max(0, pos - halfWidth) and min(length, pos + halfWidth + 1) together with
the target index re-based to the slice start; the row at the returned index
carries the target id, the slice is chronologically ordered, its length is
the window width, and away from the chat boundaries the length is
2 * halfWidth + 1, which then equals min(total, 2 * halfWidth + 1). -/
theorem getMessagesAroundMessage_c7 (allMessages : List MsgRow) (targetMessageId : Int)
    (contextSize pos : Nat)
    (hpos : findIndex? (fun m => m.id = targetMessageId) allMessages = some pos)
    (hsorted : DateSortedAsc allMessages) :
    getMessagesAroundMessage allMessages targetMessageId contextSize =
      some (contextWindow allMessages pos contextSize, pos - (pos - contextSize)) ∧
    ((contextWindow allMessages pos contextSize).map MsgRow.id)[pos - (pos - contextSize)]? =
      some targetMessageId ∧
    DateSortedAsc (contextWindow allMessages pos contextSize) ∧
    (contextWindow allMessages pos contextSize).length =
      min allMessages.length (pos + contextSize + 1) - (pos - contextSize) ∧
    (contextSize ≤ pos → pos + contextSize + 1 ≤ allMessages.length →
      (contextWindow allMessages pos contextSize).length = 2 * contextSize + 1 ∧
      (contextWindow allMessages pos contextSize).length =
        min allMessages.length (2 * contextSize + 1)) := by
  obtain ⟨hlt, a, ha, hpa⟩ := findIndex?_some_spec _ _ _ hpos
  have hid : a.id = targetMessageId := by simpa using hpa
  have hwlen : (contextWindow allMessages pos contextSize).length =
      min allMessages.length (pos + contextSize + 1) - (pos - contextSize) := by
    simp only [contextWindow, List.length_take, List.length_drop]
    omega
  refine ⟨?_, ?_, ?_, hwlen, ?_⟩
  · simp only [getMessagesAroundMessage, hpos]
  · have hidx : pos - (pos - contextSize) <
        min allMessages.length (pos + contextSize + 1) - (pos - contextSize) := by
      omega
    rw [List.getElem?_map]
    simp only [contextWindow]
    rw [List.getElem?_take_of_lt hidx, List.getElem?_drop]
    have : pos - contextSize + (pos - (pos - contextSize)) = pos := by omega
    rw [this, ha]
    simp [hid]
  · exact List.Pairwise.sublist
      ((List.take_sublist _ _).trans (List.drop_sublist _ _)) hsorted
  · intro h1 h2
    constructor
    · omega
    · omega

theorem getMessagesAroundMessage_c7_witness :
    getMessagesAroundMessage [rowC7a, rowC7b, rowC7c] 2 1 =
      some (contextWindow [rowC7a, rowC7b, rowC7c] 1 1, 1) ∧
    ((contextWindow [rowC7a, rowC7b, rowC7c] 1 1).map MsgRow.id)[1]? = some 2 ∧
    (contextWindow [rowC7a, rowC7b, rowC7c] 1 1).length = 2 * 1 + 1 :=
  ⟨(getMessagesAroundMessage_c7 [rowC7a, rowC7b, rowC7c] 2 1 1
      (by decide) (by decide)).1,
   (getMessagesAroundMessage_c7 [rowC7a, rowC7b, rowC7c] 2 1 1
      (by decide) (by decide)).2.1,
   ((getMessagesAroundMessage_c7 [rowC7a, rowC7b, rowC7c] 2 1 1
      (by decide) (by decide)).2.2.2.2 (by decide) (by decide)).1⟩

/-- C8 counterexample: with page size one, the concatenation of the page at
offset zero with the page at offset one yields the two newest messages with
the newest first, which is neither the first two chronological messages of
the chat nor chronologically ordered. -/
theorem getPage_c8_counterexample :
    DescEnumeration storeC8 1 orderedC8 ∧
    getPage orderedC8 1 0 ++ getPage orderedC8 1 1 = [rowC8d, rowC8c] ∧
    (sortByDateAsc (storeC8.filter (contextEligible 1))).take 2 = [rowC8a, rowC8b] ∧
    getPage orderedC8 1 0 ++ getPage orderedC8 1 1 ≠
      (sortByDateAsc (storeC8.filter (contextEligible 1))).take 2 := by decide

/-- C8 amended: each page is fetched most-recent-first and reversed to
chronological order, and pagination continuity holds in the reverse
composition: the page at offset n followed by the page at offset zero
equals the most recent 2n messages in chronological order, that is the last
2n entries of the chronological sequence, with no duplicates and no gaps,
provided both pages read the same date-descending enumeration. -/
theorem getPage_c8_amended (ordered : List MsgRow) (n : Nat)
    (hdesc : DateSortedDesc ordered) :
    getPage ordered n n ++ getPage ordered n 0 = (ordered.take (2 * n)).reverse ∧
    DateSortedAsc ((ordered.take (2 * n)).reverse) ∧
    getPage ordered n n ++ getPage ordered n 0 =
      ordered.reverse.drop (ordered.length - 2 * n) := by
  have hmain : getPage ordered n n ++ getPage ordered n 0 =
      (ordered.take (2 * n)).reverse := by
    simp only [getPage, getMessagesForChatQuery, List.drop_zero]
    rw [← List.reverse_append]
    congr 1
    rw [two_mul, List.take_add]
  refine ⟨hmain, ?_, ?_⟩
  · rw [DateSortedAsc, List.pairwise_reverse]
    exact List.Pairwise.sublist (List.take_sublist _ _) hdesc
  · rw [hmain, List.reverse_take]

theorem getPage_c8_witness :
    getPage orderedC8 1 1 ++ getPage orderedC8 1 0 = (orderedC8.take 2).reverse ∧
    DateSortedAsc ((orderedC8.take 2).reverse) :=
  ⟨(getPage_c8_amended orderedC8 1 (by decide)).1,
   (getPage_c8_amended orderedC8 1 (by decide)).2.1⟩

/-- C9 counterexample: a list placing the higher row id first among two rows
of equal timestamp is a valid result of the context query (whose ORDER BY
names only the date column), yet it violates the claimed id tiebreak. -/
theorem ordering_c9_counterexample :
    ContextQueryResult storeC9 1 [rowC9b, rowC9a] ∧
    ¬ tsIdOrdered [rowC9b, rowC9a] := by decide

/-- C9 amended: the chat queries order messages by raw timestamp only, with
the order of equal-timestamp rows unspecified: every valid result of the
context query is timestamp-ascending, every valid paged enumeration is
timestamp-descending, the canonical sorts realize one such result, and any
two valid results agree up to a permutation (of tied rows). -/
theorem ordering_c9_amended (store : List MsgRow) (chatId : Int) :
    ContextQueryResult store chatId (sortByDateAsc (store.filter (contextEligible chatId))) ∧
    (∀ r1 r2, ContextQueryResult store chatId r1 → ContextQueryResult store chatId r2 →
      List.Perm r1 r2) ∧
    DescEnumeration store chatId (sortByDateDesc (store.filter (contextEligible chatId))) ∧
    (∀ o1 o2, DescEnumeration store chatId o1 → DescEnumeration store chatId o2 →
      List.Perm o1 o2) := by
  refine ⟨⟨sortByDateAsc_perm _, sortByDateAsc_sorted _⟩, ?_,
    ⟨sortByDateDesc_perm _, sortByDateDesc_sorted _⟩, ?_⟩
  · intro r1 r2 h1 h2
    exact h1.1.trans h2.1.symm
  · intro o1 o2 h1 h2
    exact h1.1.trans h2.1.symm

theorem ordering_c9_witness :
    List.Perm [rowC9b, rowC9a] (sortByDateAsc (storeC9.filter (contextEligible 1))) :=
  (ordering_c9_amended storeC9 1).2.1 [rowC9b, rowC9a]
    (sortByDateAsc (storeC9.filter (contextEligible 1)))
    (by decide) ((ordering_c9_amended storeC9 1).1)

/-- C10: every row either query path returns survives the shared SQL filter:
its service is neither SMS nor RCS (NULL is accepted), it has plain text or
a rich-text blob, and it joins to the requested chat; rows failing the
filter are excluded. -/
theorem filter_c10 (store : List MsgRow) (chatId : Int) (limit offset : Nat)
    (result : List MsgRow) (m : MsgRow)
    (h : ContextQueryResult store chatId result ∨
      PagedQueryResult store chatId limit offset result)
    (hm : m ∈ result) :
    m.service ≠ some tokSMS ∧ m.service ≠ some tokRCS ∧
    (m.text ≠ none ∨ m.attributedBody ≠ none) ∧ m.chat_id = some chatId := by
  have hmem : m ∈ store.filter (contextEligible chatId) := by
    rcases h with ⟨hperm, _⟩ | ⟨ordered, ⟨hperm, _⟩, hres⟩
    · exact hperm.mem_iff.mp hm
    · have hmo : m ∈ ordered := by
        subst hres
        exact ((List.take_sublist _ _).trans (List.drop_sublist _ _)).mem hm
      exact hperm.mem_iff.mp hmo
  obtain ⟨hstore, helig⟩ := List.mem_filter.mp hmem
  simp only [contextEligible, Bool.and_eq_true, decide_eq_true_eq] at helig
  obtain ⟨⟨hchat, hserv⟩, hcont⟩ := helig
  refine ⟨?_, ?_, ?_, hchat⟩
  · intro hEq
    rw [hEq] at hserv
    simp [serviceAllowed] at hserv
  · intro hEq
    rw [hEq] at hserv
    simp [serviceAllowed] at hserv
  · simp only [hasContent, Bool.or_eq_true, Option.isSome_iff_ne_none] at hcont
    exact hcont

theorem filter_c10_witness :
    rowC10good.service ≠ some tokSMS ∧ rowC10good.service ≠ some tokRCS ∧
    (rowC10good.text ≠ none ∨ rowC10good.attributedBody ≠ none) ∧
    rowC10good.chat_id = some 1 :=
  filter_c10 storeC10 1 0 0 [rowC10good] rowC10good (Or.inl (by decide)) (by decide)

theorem phase1_c3_witness :
    phase1Model [rowC3a, rowC3b] [97] 1 = phase1Model [rowC3a, rowC3b] [97] 7 :=
  (phase1_c3_amended [rowC3a, rowC3b] [97] 1 7).1
